import Mathlib

/-!
Verification development for the CCDI Hub release-notes PDF generator
(`yaml_to_pdf_generator.py`).  The script loads a YAML list of release
entries, converts each HTML body into styled blocks, assembles a story
with a table of contents linked by anchors, and decorates every page
with a footer carrying a precomputed total page count.

The shallow embedding below translates the relevant Python functions:
  - `parse_html_content`  : HTML fragment → list of styled blocks
  - `create_table_of_contents`, `generate_pdf` : document assembly
  - `convert_svg_to_drawing` : logo scaling
  - `load_yaml_data`, `main` : load / exit behaviour
BeautifulSoup is external: a fragment is modelled as the raw string
together with the tree (or parse failure) the parser produces for it.
-/

namespace CCDI

/-- Python substring membership (the `in` operator on strings), on the
character list of the haystack. -/
def infixAux (needle : List Char) : List Char → Bool
  | [] => needle.isEmpty
  | c :: cs => needle.isPrefixOf (c :: cs) || infixAux needle cs

/-- Model of the Python expression `needle in haystack` for strings. -/
def pyIn (needle haystack : String) : Bool := infixAux needle.data haystack.data

/-- Model of the Python `str.strip()`: drop leading and trailing whitespace. -/
def pyStrip (s : String) : String :=
  ⟨(((s.data.dropWhile Char.isWhitespace).reverse).dropWhile Char.isWhitespace).reverse⟩

/-- Model of the Python `str.upper()` on the character list. -/
def pyUpper (s : String) : String := ⟨s.data.map Char.toUpper⟩

/-- Model of the Python `text.split(chr)[0] if chr in text else text`:
the prefix of the string before the first colon. -/
def beforeColon (s : String) : String := ⟨s.data.takeWhile (fun c => c != ':')⟩

/-- HTML node as produced by BeautifulSoup with the html.parser backend:
either a text node or an element carrying its tag name, the value of its
`style` attribute (empty when absent, mirroring `element.get` with a
default of the empty string), and its children in document order. -/
inductive HNode where
  | text (s : String)
  | elem (name : String) (style : String) (children : List HNode)

mutual

/-- Model of `element.get_text()`: concatenation of every descendant
text node in document order. -/
def getText : HNode → String
  | .text s => s
  | .elem _ _ cs => getTextL cs

/-- Version of `getText` acting on a list of sibling nodes. -/
def getTextL : List HNode → String
  | [] => ""
  | c :: cs => getText c ++ getTextL cs

end

/-- Tag names matched by the converter loop:
`soup.find_all(the list p, h1, h2, h3, ul, li)`. -/
def targetNames : List String := ["p", "h1", "h2", "h3", "ul", "li"]

mutual

/-- Preorder collection of the elements `soup.find_all` returns, paired
with the tag name of their direct parent (the Python code consults
`element.parent.name`; for a top-level element the parent is the
BeautifulSoup document object, whose name is `[document]`). -/
def findTargets (parent : String) : HNode → List (String × HNode)
  | .text _ => []
  | .elem n s cs =>
    (if n ∈ targetNames then [(parent, HNode.elem n s cs)] else []) ++
      findTargetsL n cs

/-- Version of `findTargets` acting on a list of sibling nodes sharing one parent. -/
def findTargetsL (parent : String) : List HNode → List (String × HNode)
  | [] => []
  | c :: cs => findTargets parent c ++ findTargetsL parent cs

end

mutual

/-- Model of `tag.find(ul)` applied below a node: the children of the
first descendant `ul` element in preorder, if any. -/
def findUlNode : HNode → Option (List HNode)
  | .text _ => none
  | .elem n _ cs => if n = "ul" then some cs else findUlL cs

/-- Version of `findUlNode` acting on a list of sibling nodes. -/
def findUlL : List HNode → Option (List HNode)
  | [] => none
  | c :: cs =>
    match findUlNode c with
    | some r => some r
    | none => findUlL cs

end

/-- Model of `tag.find(ul)` on an element: searches the descendants of
the element (not the element itself). -/
def findUlOf : HNode → Option (List HNode)
  | .text _ => none
  | .elem _ _ cs => findUlL cs

/-- Model of `tag.find_all(li, recursive False)`: the direct children
that are `li` elements. -/
def directLis (cs : List HNode) : List HNode :=
  cs.filter fun c =>
    match c with
    | .elem n _ _ => n = "li"
    | .text _ => false

/-- One styled output block.  The Python code emits ReportLab Paragraph
objects; a bullet prefix of two spaces marks the nested indent level, so
a paragraph of the form (bullet ++ t) in the ListItem style is modelled
as `listItem t 0` and one of the form (two spaces ++ bullet ++ t) as
`listItem t 1`. -/
inductive Block where
  | sectionHeading (text : String)
  | subsectionHeading (text : String)
  | paragraph (text : String)
  | listItem (text : String) (indent : Nat)
deriving DecidableEq

/-- Text carried by a block. -/
def blockText : Block → String
  | .sectionHeading t => t
  | .subsectionHeading t => t
  | .paragraph t => t
  | .listItem t _ => t

/-- Nested branch of the `ul` handler: emit one level-1 item per direct
`li` child of the nested list whose stripped text is nonempty. -/
def handleNestedLis (ncs : List HNode) : List Block :=
  (directLis ncs).flatMap fun nli =>
    let nt := pyStrip (getText nli)
    if nt = "" then [] else [Block.listItem nt 1]

/-- Model of the `ul` branch of the converter loop: iterate the direct
`li` children; an item containing a nested `ul` contributes its text up
to the first colon at level 0 followed by the nested items at level 1,
an item without one contributes its full stripped text at level 0. -/
def handleUl (cs : List HNode) : List Block :=
  (directLis cs).flatMap fun li =>
    let t := pyStrip (getText li)
    if t = "" then []
    else
      match findUlOf li with
      | some ncs =>
        let mainText := if pyIn ":" t then beforeColon t else t
        Block.listItem mainText 0 :: handleNestedLis ncs
      | none => [Block.listItem t 0]

/-- Model of the body of the converter loop for one element returned by
`find_all`, given the tag name of its direct parent.  Mirrors the
if/elif chain on `element.name` of the Python code. -/
def handleElement (parent : String) : HNode → List Block
  | .text _ => []
  | .elem name style cs =>
    if name = "p" then
      let t := pyStrip (getTextL cs)
      if t = "" then []
      else if pyIn "color: #2f5496" style && pyIn "font-size: 16pt" style then
        [Block.sectionHeading t]
      else if pyIn "color: #2f5496" style && pyIn "font-size: 13pt" style then
        [Block.subsectionHeading t]
      else [Block.paragraph t]
    else if name = "h1" || name = "h2" || name = "h3" then
      let t := pyStrip (getTextL cs)
      if t = "" then []
      else if name = "h1" then [Block.sectionHeading t]
      else [Block.subsectionHeading t]
    else if name = "ul" then handleUl cs
    else if name = "li" then
      if parent != "ul" then
        let t := pyStrip (getTextL cs)
        if t = "" then [] else [Block.listItem t 0]
      else []
    else []

/-- Conversion of a successfully parsed fragment (a forest of top-level
nodes): run the converter loop body over every element `find_all`
returns, in document order. -/
def convertNodes (roots : List HNode) : List Block :=
  (findTargetsL "[document]" roots).flatMap fun pe => handleElement pe.1 pe.2

/-- Model of the regular-expression substitution removing every
leftmost, non-overlapping run of the form: less-than sign, one or more
characters other than greater-than, then a greater-than sign.  Written
as a one-pass scanner: with no open candidate (`none`) an ordinary
character is copied and a less-than sign opens a candidate; with an open
candidate (`some buf`, the characters seen since the opening sign, in
reverse) a greater-than sign either completes a removal (buffer
nonempty) or, for the immediate pair of angle signs that the pattern
does not match, flushes both characters; any other character is
buffered, as the character class admits every character but the closing
sign.  A candidate still open at the end of input never matches, so it
is flushed literally. -/
def stripTagsGo : Option (List Char) → List Char → List Char
  | none, [] => []
  | some buf, [] => '<' :: buf.reverse
  | none, c :: rest =>
    if c = '<' then stripTagsGo (some []) rest
    else c :: stripTagsGo none rest
  | some buf, c :: rest =>
    if c = '>' then
      if buf.isEmpty then '<' :: '>' :: stripTagsGo none rest
      else stripTagsGo none rest
    else stripTagsGo (some (c :: buf)) rest

/-- Tag-stripping fallback applied to the raw fragment text. -/
def stripTags (s : String) : String := ⟨stripTagsGo none s.data⟩

/-- Model of `parse_html_content`.  The fragment is given as its raw
string together with the outcome BeautifulSoup produces for it: either
the parsed forest or a parse failure.  An empty raw string returns no
blocks before parsing is attempted; a parse failure falls back to
tag-stripping and emits the remaining text, when nonempty, as a single
plain paragraph. -/
def parse_html_content (raw : String) (parsed : Except Unit (List HNode)) :
    List Block :=
  if raw = "" then []
  else
    match parsed with
    | .ok roots => convertNodes roots
    | .error _ =>
      let t := pyStrip (stripTags raw)
      if t = "" then [] else [Block.paragraph t]

/-- One HTML fragment as handed to the converter: its raw string and the
outcome BeautifulSoup produces for it. -/
structure Fragment where
  raw : String
  parsed : Except Unit (List HNode)

/-- One release note record from the YAML list.  Fields are optional,
mirroring the dictionary lookups `note.get(key, default)`. -/
structure ReleaseNote where
  version : Option String
  title : Option String
  date : Option String
  fullText : Option Fragment

/-- One data row of the table of contents: display version, display
date, and the anchor identifier the version cell links to (the link
href prefixes it with a hash sign). -/
structure TocRow where
  version : String
  date : String
  anchorId : String
deriving DecidableEq

/-- Model of the row `create_table_of_contents` appends for the note at
index `i`. -/
def mkTocRow (i : Nat) (note : ReleaseNote) : TocRow :=
  { version := note.version.getD "N/A"
    date := note.date.getD "Unknown Date"
    anchorId := "release_" ++ toString i }

/-- Data rows of the table of contents starting at index `i`, mirroring
the `enumerate` loop of `create_table_of_contents`. -/
def tocRowsFrom (i : Nat) : List ReleaseNote → List TocRow
  | [] => []
  | n :: rest => mkTocRow i n :: tocRowsFrom (i + 1) rest

/-- Model of `create_table_of_contents`: the data rows of the TOC table
in input order (a constant bold Version/Date header row precedes them in
the rendered table and carries no anchor). -/
def create_table_of_contents (notes : List ReleaseNote) : List TocRow :=
  tocRowsFrom 0 notes

/-- One flowable appended to the story by `generate_pdf`. -/
inductive StoryElem where
  | tocHeading
  | spacerElem
  | tocTable (rows : List TocRow)
  | pageBreak
  | anchoredTitle (anchor : String) (title : String)
  | dateLine (text : String)
  | contentBlock (b : Block)

/-- Body blocks of one note: `parse_html_content` on its `fullText`,
guarded by the truthiness check `if full_text`. -/
def contentBlocks (note : ReleaseNote) : List Block :=
  match note.fullText with
  | none => []
  | some f => if f.raw = "" then [] else parse_html_content f.raw f.parsed

/-- Story elements `generate_pdf` appends for the note at index `i`:
the anchored title, the upper-cased date line, a spacer, then the
converted body blocks. -/
def sectionElems (i : Nat) (note : ReleaseNote) : List StoryElem :=
  [StoryElem.anchoredTitle ("release_" ++ toString i)
      (note.title.getD "Unknown Release"),
    StoryElem.dateLine ("DATE OF RELEASE: " ++ pyUpper (note.date.getD "Unknown Date")),
    StoryElem.spacerElem] ++
    (contentBlocks note).map StoryElem.contentBlock

/-- Per-note part of the story starting at index `i`: each section
followed by a page break except after the last note, mirroring the
`enumerate` loop of `generate_pdf`. -/
def storyBody (i : Nat) : List ReleaseNote → List StoryElem
  | [] => []
  | n :: rest =>
    sectionElems i n ++
      (if rest.isEmpty then [] else [StoryElem.pageBreak]) ++
      storyBody (i + 1) rest

/-- Model of the story `generate_pdf` builds: TOC heading, spacer, TOC
table, page break, then the per-note sections. -/
def generate_story (notes : List ReleaseNote) : List StoryElem :=
  [StoryElem.tocHeading, StoryElem.spacerElem,
    StoryElem.tocTable (create_table_of_contents notes), StoryElem.pageBreak] ++
    storyBody 0 notes

/-- Model of the statement `self.total_pages = 37` executed by
`generate_pdf` before the build, whatever the loaded notes are. -/
def generate_total_pages (_notes : List ReleaseNote) : Nat := 37

/-- Model of `generate_pdf`: the story handed to the layout engine and
the total page count installed for the footer. -/
def generate_pdf (notes : List ReleaseNote) : List StoryElem × Nat :=
  (generate_story notes, generate_total_pages notes)

/-- Footer page counter drawn by `create_header_footer`: the current
page number from the canvas and the stored total. -/
def footer_page_text (page_num total : Nat) : String :=
  "Page " ++ toString page_num ++ " of " ++ toString total

/-- Anchored sections of a story in order: the anchor and title of every
`anchoredTitle` element. -/
def anchoredSections : List StoryElem → List (String × String)
  | [] => []
  | StoryElem.anchoredTitle a t :: rest => (a, t) :: anchoredSections rest
  | _ :: rest => anchoredSections rest

/-- State of the YAML input file as `main` and `load_yaml_data` see it:
absent, present but unreadable or unparsable, or parsed content that may
or may not hold the `releaseNotesList` key. -/
inductive YamlFile where
  | absent
  | unreadable
  | content (notes : Option (List ReleaseNote))

/-- Result of `load_yaml_data`: the loaded notes, or process exit with a
status code (the except branch prints a diagnostic and calls
`sys.exit(1)`; a missing key raises ValueError into that branch). -/
inductive LoadResult where
  | ok (notes : List ReleaseNote)
  | exited (code : Nat)

/-- Model of `load_yaml_data`. -/
def load_yaml_data : YamlFile → LoadResult
  | .absent => .exited 1
  | .unreadable => .exited 1
  | .content none => .exited 1
  | .content (some notes) => .ok notes

/-- Outcome of running `main`: the process exit code and the document
written to the output path, `none` when the process exited before
`generate_pdf` ran (the output file is neither created nor modified). -/
structure MainOutcome where
  exitCode : Nat
  written : Option (List StoryElem × Nat)

/-- Model of `main`: the existence check exits with status 1 before the
generator is built; otherwise the loader either exits or yields the
notes that `generate_pdf` renders. -/
def main (f : YamlFile) : MainOutcome :=
  match f with
  | .absent => { exitCode := 1, written := none }
  | f =>
    match load_yaml_data f with
    | .exited c => { exitCode := c, written := none }
    | .ok notes => { exitCode := 0, written := some (generate_pdf notes) }

/-- Dimensions of a drawing as svglib reports them: each may be absent
(None) and is otherwise a rational number (Python floats are modelled
as exact rationals; the scaling facts at stake are exact). -/
structure SvgDrawing where
  width : Option ℚ
  height : Option ℚ
deriving DecidableEq

/-- Python truthiness of a dimension: present and nonzero. -/
def truthyDim : Option ℚ → Bool
  | none => false
  | some x => x != 0

/-- Model of `convert_svg_to_drawing` on the drawing `svg2rlg` returns
(`none` when conversion failed): with both dimensions truthy the width
is scaled by target height over native height and the height set to the
target; otherwise the width falls back to the constant 400. -/
def convert_svg_to_drawing (svg : Option SvgDrawing) (target_height : ℚ) :
    Option SvgDrawing :=
  match svg with
  | none => none
  | some d =>
    if truthyDim d.width && truthyDim d.height then
      let scale := target_height / d.height.getD 0
      some { width := some (d.width.getD 0 * scale), height := some target_height }
    else
      some { width := some 400, height := some target_height }

/-- A sequence of converter calls, as raw/parsed pairs, and the block
sequences they return in order.  `parse_html_content` reads only its
argument (the Python method reads `self.styles`, set once at startup,
and writes no attribute), so the trace is a map. -/
def convertTrace (fs : List Fragment) : List (List Block) :=
  fs.map fun f => parse_html_content f.raw f.parsed

mutual

/-- Ancestor element names, innermost first, of every `li` element of a
tree in document order.  Stated from the wording of the specification
(it speaks of an unordered-list ancestor) to compare with the code,
which consults only the direct parent. -/
def liAncestors (anc : List String) : HNode → List (List String)
  | .text _ => []
  | .elem n _ cs => (if n = "li" then [anc] else []) ++ liAncestorsL (n :: anc) cs

/-- Version of `liAncestors` acting on a list of sibling nodes. -/
def liAncestorsL (anc : List String) : List HNode → List (List String)
  | [] => []
  | c :: cs => liAncestors anc c ++ liAncestorsL anc cs

end

/-- Anchor and display title of the section emitted for each note
starting at index `i`: the expected summary that `anchoredSections`
of the story body is proved to equal. -/
def sectionSummaryFrom (i : Nat) : List ReleaseNote → List (String × String)
  | [] => []
  | n :: rest =>
    ("release_" ++ toString i, n.title.getD "Unknown Release") ::
      sectionSummaryFrom (i + 1) rest

/-- Tree of the fragment with a nested list,
the string ul li Group A colon ul li X li Y end tags,
as html.parser produces it. -/
def c2Tree : List HNode :=
  [HNode.elem "ul" ""
    [HNode.elem "li" ""
      [HNode.text "Group A: ",
        HNode.elem "ul" ""
          [HNode.elem "li" "" [HNode.text "X"],
            HNode.elem "li" "" [HNode.text "Y"]]]]]

/-- Tree of the fragment consisting of one paragraph styled with the
heading colour and the 16pt font size, with text Overview. -/
def c3Tree : List HNode :=
  [HNode.elem "p" "color: #2f5496; font-size: 16pt" [HNode.text "Overview"]]

/-- Tree of a fragment whose inner list item has an unordered-list
ancestor but an ordered-list direct parent: a ul holding a li holding an
ol holding a li with text X. -/
def c7Tree : List HNode :=
  [HNode.elem "ul" ""
    [HNode.elem "li" ""
      [HNode.elem "ol" "" [HNode.elem "li" "" [HNode.text "X"]]]]]

/-- Tree of a fragment whose outer list item text begins with a colon
and contains a nested list: a ul holding a li with text a lone colon
followed by a nested ul with one item X. -/
def c10Tree : List HNode :=
  [HNode.elem "ul" ""
    [HNode.elem "li" ""
      [HNode.text ":",
        HNode.elem "ul" "" [HNode.elem "li" "" [HNode.text "X"]]]]]

/-- Raw fragment string parsed to `c10Tree`, used by the witness of the
amended blank-block invariant. -/
def c10Raw : String := "<ul><li>:<ul><li>X</li></ul></li></ul>"

/-- Two concrete release notes used by closed witnesses. -/
def demoNotes : List ReleaseNote :=
  [{ version := some "2.0.0", title := some "CCDI Hub 2.0.0 Release"
     date := some "June 17, 2024", fullText := none },
   { version := none, title := none, date := none, fullText := none }]

/-- Concrete call sequence for the determinism witness: the same
fragment converted twice in a row. -/
def demoTrace : List Fragment :=
  [{ raw := "<p>hello</p>", parsed := .ok [HNode.elem "p" "" [HNode.text "hello"]] },
   { raw := "<p>hello</p>", parsed := .ok [HNode.elem "p" "" [HNode.text "hello"]] }]


theorem anchoredSections_append (a b : List StoryElem) :
    anchoredSections (a ++ b) = anchoredSections a ++ anchoredSections b := by
  induction a with
  | nil => rfl
  | cons x xs ih => cases x <;> simp [anchoredSections, ih]

theorem anchoredSections_contentBlocks (bs : List Block) :
    anchoredSections (bs.map StoryElem.contentBlock) = [] := by
  induction bs with
  | nil => rfl
  | cons b bs ih => simp [anchoredSections, ih]

theorem anchoredSections_sectionElems (i : Nat) (n : ReleaseNote) :
    anchoredSections (sectionElems i n) =
      [("release_" ++ toString i, n.title.getD "Unknown Release")] := by
  simp [sectionElems, anchoredSections, anchoredSections_append,
    anchoredSections_contentBlocks]

theorem anchoredSections_pageBreakIf (c : Prop) [Decidable c] :
    anchoredSections (if c then [] else [StoryElem.pageBreak]) = [] := by
  by_cases h : c <;> simp [h, anchoredSections]

theorem anchoredSections_storyBody (ns : List ReleaseNote) :
    ∀ i, anchoredSections (storyBody i ns) = sectionSummaryFrom i ns := by
  induction ns with
  | nil => intro i; rfl
  | cons n rest ih =>
    intro i
    simp only [storyBody, anchoredSections_append, anchoredSections_sectionElems,
      anchoredSections_pageBreakIf, ih, sectionSummaryFrom]
    simp

theorem anchoredSections_generate_story (notes : List ReleaseNote) :
    anchoredSections (generate_story notes) = sectionSummaryFrom 0 notes := by
  simp [generate_story, anchoredSections, anchoredSections_storyBody]

theorem sectionSummaryFrom_length (ns : List ReleaseNote) :
    ∀ i, (sectionSummaryFrom i ns).length = ns.length := by
  induction ns with
  | nil => intro i; rfl
  | cons n rest ih => intro i; simp [sectionSummaryFrom, ih]

theorem tocRowsFrom_length (ns : List ReleaseNote) :
    ∀ i, (tocRowsFrom i ns).length = ns.length := by
  induction ns with
  | nil => intro i; rfl
  | cons n rest ih => intro i; simp [tocRowsFrom, ih]

theorem sectionSummaryFrom_get_opt (ns : List ReleaseNote) :
    ∀ i k, (sectionSummaryFrom i ns)[k]? =
      (ns[k]?).map
        (fun n => ("release_" ++ toString (i + k), n.title.getD "Unknown Release")) := by
  induction ns with
  | nil => intro i k; simp [sectionSummaryFrom]
  | cons n rest ih =>
    intro i k
    cases k with
    | zero => simp [sectionSummaryFrom]
    | succ k =>
      have hi : i + (k + 1) = i + 1 + k := by omega
      simp [sectionSummaryFrom, ih (i + 1) k, hi]

theorem tocRowsFrom_get_opt (ns : List ReleaseNote) :
    ∀ i k, (tocRowsFrom i ns)[k]? = (ns[k]?).map (fun n => mkTocRow (i + k) n) := by
  induction ns with
  | nil => intro i k; simp [tocRowsFrom]
  | cons n rest ih =>
    intro i k
    cases k with
    | zero => simp [tocRowsFrom]
    | succ k =>
      have hi : i + (k + 1) = i + 1 + k := by omega
      simp [tocRowsFrom, ih (i + 1) k, hi]

/-- C1: for every loaded list of release entries the assembled story
holds exactly one anchored section per entry and the TOC exactly one
data row per entry; for every index k the TOC row at position k links to
the anchor release_k, which is exactly the anchor attached to the
section at position k; rows and sections follow the entry order (row k
shows the version of entry k and section k the title of entry k). -/
theorem c1_toc_anchor_alignment (notes : List ReleaseNote) :
    (create_table_of_contents notes).length = notes.length ∧
    (anchoredSections (generate_story notes)).length = notes.length ∧
    ∀ k, k < notes.length →
      ((create_table_of_contents notes)[k]?).map TocRow.anchorId =
        some ("release_" ++ toString k) ∧
      ((anchoredSections (generate_story notes))[k]?).map Prod.fst =
        some ("release_" ++ toString k) ∧
      ((anchoredSections (generate_story notes))[k]?).map Prod.snd =
        (notes[k]?).map (fun n => n.title.getD "Unknown Release") ∧
      ((create_table_of_contents notes)[k]?).map TocRow.version =
        (notes[k]?).map (fun n => n.version.getD "N/A") := by
  refine ⟨by simp [create_table_of_contents, tocRowsFrom_length], ?_, ?_⟩
  · simp [anchoredSections_generate_story, sectionSummaryFrom_length]
  · intro k h
    obtain ⟨nk, hnk⟩ : ∃ nk, notes[k]? = some nk :=
      ⟨_, List.getElem?_eq_getElem h⟩
    have htoc := tocRowsFrom_get_opt notes 0 k
    have hsec := sectionSummaryFrom_get_opt notes 0 k
    rw [Nat.zero_add] at htoc hsec
    refine ⟨?_, ?_, ?_, ?_⟩
    · simp [create_table_of_contents, htoc, hnk, mkTocRow]
    · simp [anchoredSections_generate_story, hsec, hnk]
    · simp [anchoredSections_generate_story, hsec, hnk]
    · simp [create_table_of_contents, htoc, hnk, mkTocRow]

/-- Closed instance of the alignment invariant at a two-entry list. -/
theorem c1_witness :
    ((create_table_of_contents demoNotes)[1]?).map TocRow.anchorId =
      some "release_1" ∧
    ((anchoredSections (generate_story demoNotes))[1]?).map Prod.fst =
      some "release_1" := by
  have h := (c1_toc_anchor_alignment demoNotes).2.2 1 (by decide)
  exact ⟨h.1, h.2.1⟩


/-- C2 evaluation: at the nested-list example the converter emits the
three expected items and then the two nested items again at the outer
level, because the loop over all matched elements visits the nested ul
itself; the claimed three-item output is refuted. -/
theorem c2_nested_list_duplication :
    convertNodes c2Tree =
      [Block.listItem "Group A" 0, Block.listItem "X" 1, Block.listItem "Y" 1,
        Block.listItem "X" 0, Block.listItem "Y" 0] ∧
    convertNodes c2Tree ≠
      [Block.listItem "Group A" 0, Block.listItem "X" 1, Block.listItem "Y" 1] := by
  decide

/-- C3: a nonempty-text paragraph is classified by the elif chain on its
style string: heading colour with 16pt gives a section heading, else
heading colour with 13pt gives a subsection heading, else a plain
paragraph; and the concrete Overview example yields exactly one section
heading. -/
theorem c3_paragraph_style_classification :
    (∀ parent style cs, pyStrip (getTextL cs) ≠ "" →
      handleElement parent (HNode.elem "p" style cs) =
        [if pyIn "color: #2f5496" style && pyIn "font-size: 16pt" style then
            Block.sectionHeading (pyStrip (getTextL cs))
          else if pyIn "color: #2f5496" style && pyIn "font-size: 13pt" style then
            Block.subsectionHeading (pyStrip (getTextL cs))
          else Block.paragraph (pyStrip (getTextL cs))]) ∧
    convertNodes c3Tree = [Block.sectionHeading "Overview"] := by
  constructor
  · intro parent style cs ht
    simp only [handleElement, if_pos rfl, if_neg ht]
    split_ifs <;> rfl
  · decide

/-- Closed instance of the paragraph classification at the Overview
example element. -/
theorem c3_witness :
    pyStrip (getTextL [HNode.text "Overview"]) ≠ "" ∧
    handleElement "[document]"
        (HNode.elem "p" "color: #2f5496; font-size: 16pt" [HNode.text "Overview"]) =
      [if pyIn "color: #2f5496" "color: #2f5496; font-size: 16pt" &&
          pyIn "font-size: 16pt" "color: #2f5496; font-size: 16pt" then
          Block.sectionHeading (pyStrip (getTextL [HNode.text "Overview"]))
        else if pyIn "color: #2f5496" "color: #2f5496; font-size: 16pt" &&
            pyIn "font-size: 13pt" "color: #2f5496; font-size: 16pt" then
          Block.subsectionHeading (pyStrip (getTextL [HNode.text "Overview"]))
        else Block.paragraph (pyStrip (getTextL [HNode.text "Overview"]))] :=
  ⟨by decide,
    c3_paragraph_style_classification.1 "[document]"
      "color: #2f5496; font-size: 16pt" [HNode.text "Overview"] (by decide)⟩

/-- C4: the total page count shown in every footer is the constant 37
installed before the build; it is the same for every input list and
does not depend on anything the layout engine produces. -/
theorem c4_total_pages_static :
    ∀ (notes other : List ReleaseNote) (page_num : Nat),
      (generate_pdf notes).2 = 37 ∧
      (generate_pdf notes).2 = (generate_pdf other).2 ∧
      footer_page_text page_num (generate_pdf notes).2 =
        footer_page_text page_num 37 := by
  intro notes other page_num
  exact ⟨rfl, rfl, rfl⟩

/-- C5: on a parse failure the converter never escapes with an error:
it returns the tag-stripped remaining text as one plain paragraph when
that text is nonempty, and the empty sequence otherwise. -/
theorem c5_parse_failure_fallback :
    ∀ (raw : String) (u : Unit),
      (pyStrip (stripTags raw) = "" ∧
        parse_html_content raw (Except.error u) = []) ∨
      (pyStrip (stripTags raw) ≠ "" ∧
        parse_html_content raw (Except.error u) =
          [Block.paragraph (pyStrip (stripTags raw))]) := by
  intro raw u
  by_cases hr : raw = ""
  · left
    subst hr
    exact ⟨by decide, rfl⟩
  · by_cases h : pyStrip (stripTags raw) = ""
    · left; exact ⟨h, by simp [parse_html_content, hr, h]⟩
    · right; exact ⟨h, by simp [parse_html_content, hr, h]⟩

/-- C6: a missing file, an unreadable or unparsable file, and a parsed
file without the releaseNotesList key all end the process with exit
status 1 and with no output document written. -/
theorem c6_load_failure_exits (f : YamlFile)
    (h : f = YamlFile.absent ∨ f = YamlFile.unreadable ∨
      f = YamlFile.content none) :
    (main f).exitCode = 1 ∧ (main f).written = none := by
  rcases h with h | h | h <;> subst h <;> exact ⟨rfl, rfl⟩

/-- Closed instance of the failure-exit behaviour at a missing file. -/
theorem c6_witness :
    (main YamlFile.absent).exitCode = 1 ∧ (main YamlFile.absent).written = none :=
  c6_load_failure_exits YamlFile.absent (Or.inl rfl)

/-- C7 counterexample: in the tree of a ul holding a li holding an ol
holding a li with text X, the inner list item has an unordered-list
ancestor, yet its direct parent is the ordered list, so the orphan rule
emits it and the converter emits X twice. -/
theorem c7_counterexample :
    liAncestorsL [] c7Tree = [["ul"], ["ol", "li", "ul"]] ∧
    "ul" ∈ ["ol", "li", "ul"] ∧
    handleElement "ol" (HNode.elem "li" "" [HNode.text "X"]) =
      [Block.listItem "X" 0] ∧
    convertNodes c7Tree = [Block.listItem "X" 0, Block.listItem "X" 0] := by
  decide

/-- C7 amended: the orphan rule keys on the direct parent only: a list
item whose direct parent is not an unordered list is emitted as a
top-level item when its stripped text is nonempty, and one whose direct
parent is an unordered list is never emitted by this rule. -/
theorem c7_amended_direct_parent_rule (parent style : String) (cs : List HNode) :
    handleElement parent (HNode.elem "li" style cs) =
      if parent ≠ "ul" ∧ pyStrip (getTextL cs) ≠ "" then
        [Block.listItem (pyStrip (getTextL cs)) 0]
      else [] := by
  by_cases hp : parent = "ul" <;> by_cases ht : pyStrip (getTextL cs) = "" <;>
    simp [handleElement, hp, ht]

/-- C8: with truthy native dimensions the scaled width is the native
width times target height over native height (so a 400 by 100 drawing
scaled to height 50 gets width 200), and the constant fallback width 400
is used exactly when a dimension is missing or zero. -/
theorem c8_logo_scaling (w h t : ℚ) (hw : w ≠ 0) (hh : h ≠ 0) :
    convert_svg_to_drawing (some { width := some w, height := some h }) t =
      some { width := some (w * (t / h)), height := some t } ∧
    convert_svg_to_drawing (some { width := some 400, height := some 100 }) 50 =
      some { width := some 200, height := some 50 } ∧
    (∀ (hd : Option ℚ) (t2 : ℚ),
      convert_svg_to_drawing (some { width := none, height := hd }) t2 =
        some { width := some 400, height := some t2 }) ∧
    (∀ (wd : Option ℚ) (t2 : ℚ),
      convert_svg_to_drawing (some { width := wd, height := none }) t2 =
        some { width := some 400, height := some t2 }) := by
  refine ⟨?_, ?_, ?_, ?_⟩
  · simp [convert_svg_to_drawing, truthyDim, hw, hh]
  · norm_num [convert_svg_to_drawing, truthyDim]
  · intro hd t2; simp [convert_svg_to_drawing, truthyDim]
  · intro wd t2; cases wd <;> simp [convert_svg_to_drawing, truthyDim]

/-- Closed instance of the aspect-ratio scaling at the 400 by 100
drawing and target height 50. -/
theorem c8_witness :
    convert_svg_to_drawing (some { width := some 400, height := some 100 }) 50 =
      some { width := some (400 * (50 / 100)), height := some 50 } :=
  (c8_logo_scaling 400 100 50 (by norm_num) (by norm_num)).1

/-- C9: converter calls are independent of call history: whenever the
call sequence holds the same fragment at two positions, the returned
block sequences at those positions are equal. -/
theorem c9_converter_deterministic (fs : List Fragment) (i j : Nat)
    (hij : fs[i]? = fs[j]?) :
    (convertTrace fs)[i]? = (convertTrace fs)[j]? := by
  simp [convertTrace, List.getElem?_map, hij]

/-- Closed instance of determinism on a two-call trace repeating one
fragment. -/
theorem c9_witness : (convertTrace demoTrace)[0]? = (convertTrace demoTrace)[1]? :=
  c9_converter_deterministic demoTrace 0 1 rfl


theorem mem_handleNestedLis (ncs : List HNode) (b : Block)
    (hb : b ∈ handleNestedLis ncs) :
    ∃ t, b = Block.listItem t 1 ∧ t ≠ "" := by
  simp only [handleNestedLis, List.mem_flatMap] at hb
  obtain ⟨nli, _, hmem⟩ := hb
  by_cases h : pyStrip (getText nli) = ""
  · simp [h] at hmem
  · simp [h] at hmem
    exact ⟨pyStrip (getText nli), hmem, h⟩

theorem mem_handleUl_blank (cs : List HNode) (b : Block)
    (hb : b ∈ handleUl cs) (hblank : blockText b = "") :
    b = Block.listItem "" 0 := by
  simp only [handleUl, List.mem_flatMap] at hb
  obtain ⟨li, _, hmem⟩ := hb
  by_cases h : pyStrip (getText li) = ""
  · simp [h] at hmem
  · cases hfind : findUlOf li with
    | none =>
      simp [h, hfind] at hmem
      subst hmem
      simp [blockText] at hblank
      exact absurd hblank h
    | some ncs =>
      simp [h, hfind] at hmem
      rcases hmem with rfl | hmem2
      · simp only [blockText] at hblank
        rw [hblank]
      · obtain ⟨t, rfl, ht⟩ := mem_handleNestedLis ncs b hmem2
        simp [blockText] at hblank
        exact absurd hblank ht

theorem mem_handleElement_blank (parent : String) (el : HNode) (b : Block)
    (hb : b ∈ handleElement parent el) (hblank : blockText b = "") :
    b = Block.listItem "" 0 := by
  rcases el with s | ⟨name, style, cs⟩
  · simp [handleElement] at hb
  · simp only [handleElement] at hb
    split_ifs at hb <;>
      first
        | exact absurd hb (List.not_mem_nil b)
        | exact mem_handleUl_blank cs b hb hblank
        | (rw [List.mem_singleton] at hb; subst hb;
           simp only [blockText] at hblank; contradiction)

/-- C10 amended: every block the converter emits carries nonempty
stripped text, except that the outer-level list item synthesized for a
list item holding a nested list carries the prefix of its text before
the first colon, which can be empty; formally, a blank emitted block can
only be a level-0 list item with empty text. -/
theorem c10_amended_no_blank_blocks (raw : String)
    (parsed : Except Unit (List HNode)) (b : Block)
    (hb : b ∈ parse_html_content raw parsed) (hblank : blockText b = "") :
    b = Block.listItem "" 0 := by
  by_cases hr : raw = ""
  · simp [parse_html_content, hr] at hb
  · cases parsed with
    | error u =>
      simp only [parse_html_content, if_neg hr] at hb
      by_cases h : pyStrip (stripTags raw) = ""
      · simp [h] at hb
      · simp [h] at hb
        subst hb
        simp [blockText] at hblank
        exact absurd hblank h
    | ok roots =>
      simp only [parse_html_content, if_neg hr] at hb
      simp only [convertNodes, List.mem_flatMap] at hb
      obtain ⟨pe, _, hmem⟩ := hb
      exact mem_handleElement_blank pe.1 pe.2 b hmem hblank

/-- C10 counterexample: a list item whose text begins with a colon and
holds a nested list makes the converter emit a list item with empty
text. -/
theorem c10_counterexample :
    convertNodes c10Tree =
      [Block.listItem "" 0, Block.listItem "X" 1, Block.listItem "X" 0] ∧
    Block.listItem "" 0 ∈ convertNodes c10Tree ∧
    blockText (Block.listItem "" 0) = "" := by
  decide

/-- Closed instance of the amended blank-block invariant at the colon
fragment. -/
theorem c10_amended_witness :
    Block.listItem "" 0 ∈ parse_html_content c10Raw (Except.ok c10Tree) ∧
    Block.listItem "" 0 = Block.listItem "" 0 :=
  ⟨by decide,
    c10_amended_no_blank_blocks c10Raw (Except.ok c10Tree)
      (Block.listItem "" 0) (by decide) (by decide)⟩

end CCDI
